import Mathlib

/-!
Verification of the dangerous-mode writing-session plugin (`src/main.ts`).

The embedding is shallow: the plugin's pure helpers become Lean functions
over `List Char` / `String`, and the stateful controller becomes explicit
state passing on a `PluginState` record.  JS timestamps (`Date.now()`) are
modelled as `ℤ`, document lengths as `ℕ`, and the overlay ratio arithmetic
(done on JS numbers) as exact `ℚ` arithmetic.
-/

namespace DangerousMode

/-- One step of JS `text.split(/\r?\n/)`: prepend a character to the first
line of an already-split list. -/
def consHead (c : Char) : List (List Char) → List (List Char)
  | [] => [[c]]
  | l :: ls => (c :: l) :: ls

/-- JS `text.split(/\r?\n/)` over the character list: a line break is either
`"\r\n"` or `"\n"`; a lone `'\r'` is ordinary line content. -/
def splitLinesRN : List Char → List (List Char)
  | [] => [[]]
  | '\n' :: rest => [] :: splitLinesRN rest
  | '\r' :: '\n' :: rest => [] :: splitLinesRN rest
  | '\r' :: rest => consHead '\r' (splitLinesRN rest)
  | c :: rest => consHead c (splitLinesRN rest)

/-- JS `String.prototype.trim` restricted to ASCII whitespace (the inputs
the plugin compares against are `"---"` delimiter lines). -/
def trimChars (l : List Char) : List Char :=
  ((l.dropWhile Char.isWhitespace).reverse.dropWhile Char.isWhitespace).reverse

/-- The frontmatter delimiter token `"---"`. -/
def dashes : List Char := ['-', '-', '-']

/-- The scan loop of `extractFrontmatterBlock` (src/main.ts:406-414): walk the
lines after the first; on the first line trimming to `"---"` return the lines
up to and including it, otherwise `none`. -/
def takeUntilClose : List (List Char) → Option (List (List Char))
  | [] => none
  | l :: ls =>
    if trimChars l = dashes then some [l]
    else
      match takeUntilClose ls with
      | none => none
      | some t => some (l :: t)

/-- JS `lines.join("\n")`. -/
def joinNL : List (List Char) → List Char
  | [] => []
  | [l] => l
  | l :: l2 :: ls => l ++ '\n' :: joinNL (l2 :: ls)

/-- JS `block.endsWith("\n")`. -/
def endsWithNL (l : List Char) : Bool :=
  l.getLast? = some '\n'

/-- Embedding of `extractFrontmatterBlock` (src/main.ts:401-416): split on `\r?\n`; if the
very first line trims to `"---"` and a later line also trims to `"---"`, return
lines 0..i joined with `"\n"`, appending `"\n"` unless already present;
otherwise `null`. -/
def extractFrontmatterBlock (text : String) : Option String :=
  let lines := splitLinesRN text.data
  match lines with
  | [] => none
  | l0 :: rest =>
    if trimChars l0 = dashes then
      match takeUntilClose rest with
      | none => none
      | some t =>
        let block := joinNL (l0 :: t)
        some (String.mk (if endsWithNL block then block else block ++ ['\n']))
    else none

/-- The content `wipeTargetNote` persists (src/main.ts:200):
`extractFrontmatterBlock(raw) ?? ""`. -/
def wipePreservedOutput (raw : String) : String :=
  (extractFrontmatterBlock raw).getD ""

/-- Index (relative to the lines after the first) of the first closing
delimiter line, i.e. the first line trimming to `"---"`. -/
def firstCloseIdx : List (List Char) → Option ℕ
  | [] => none
  | l :: ls =>
    if trimChars l = dashes then some 0
    else (firstCloseIdx ls).map (· + 1)

/-- The preserved wipe output as the specification words it: splitting on
`\r?\n`, if the very first line trims to exactly `"---"` and some later line
also trims to `"---"`, the output is the lines from the first through that
first closing delimiter joined with `"\n"` plus exactly one trailing `"\n"`;
otherwise the output is the empty string. -/
def specPreservedOutput (raw : String) : String :=
  let lines := splitLinesRN raw.data
  match lines with
  | [] => ""
  | l0 :: rest =>
    if trimChars l0 = dashes then
      match firstCloseIdx rest with
      | some k => String.mk (joinNL ((l0 :: rest).take (k + 2)) ++ ['\n'])
      | none => ""
    else ""

/-- Embedding of `SessionState` (src/main.ts:303-310).  Timestamps are `Date.now()`
values modelled as `ℤ`; `docLength` is a string length. -/
structure SessionState where
  targetPath : String
  startedAt : ℤ
  durationMs : ℤ
  idleCutoffMs : ℤ
  endsAt : ℤ
  docLength : ℕ
deriving Repr, DecidableEq

/-- The mutable fields of `DangerousModePlugin` (src/main.ts:5-17).  DOM
handles (`statusEl`, `overlayEl`) are modelled by their presence; the
overlay's `is-visible` class and `progress-*` class index are modelled by
`overlayVisible` and `overlayLevel`; `document.body`'s
`dangerous-no-select` class by `bodyNoSelect`. -/
structure PluginState where
  active : Bool := false
  targetFile : Option String := none
  session : Option SessionState := none
  lastInsertAt : ℤ := 0
  idleTicker : Option ℕ := none
  statusEl : Bool := false
  idleWarnFired : Bool := false
  overlayEl : Bool := false
  overlayLevel : ℤ := 0
  overlayVisible : Bool := false
  bodyNoSelect : Bool := false
  wiping : Bool := false
deriving Repr, DecidableEq

/-- Embedding of `endSession` (src/main.ts:114-131): clear the active flag, release the
target file and session, stop the ticker, remove the status and overlay
elements, and drop the no-select body class.  It does not touch
`lastInsertAt`, `idleWarnFired`, `overlayLevel`, `overlayVisible` or
`wiping`. -/
def endSession (s : PluginState) : PluginState :=
  { s with
    active := false
    targetFile := none
    session := none
    idleTicker := none
    statusEl := false
    overlayEl := false
    bodyNoSelect := false }

/-- Embedding of `clamp` (src/main.ts:393-395) on JS numbers, modelled on `ℚ`. -/
def clamp (n lo hi : ℚ) : ℚ := max lo (min hi n)

/-- Embedding of `clamp` (src/main.ts:393-395) applied to integer-valued arguments, as in
`clamp(Math.round(p * 10), 0, 10)`. -/
def clampZ (n lo hi : ℤ) : ℤ := max lo (min hi n)

/-- The quantization step of `setOverlayProgress` (src/main.ts:236):
`clamp(Math.round(p * 10), 0, 10)`.  For nonnegative arguments JS
`Math.round` is round-half-up, which is Mathlib's `round`. -/
def quantize (p : ℚ) : ℤ := clampZ (round (p * 10)) 0 10

/-- Embedding of `setOverlayProgress` (src/main.ts:234-242).  The returned `Bool` records
whether a `progress-*` class swap was emitted to the DOM. -/
def setOverlayProgress (p : ℚ) (s : PluginState) : PluginState × Bool :=
  if !s.overlayEl then (s, false)
  else
    let level := quantize p
    if level = s.overlayLevel then (s, false)
    else ({ s with overlayLevel := level }, true)

/-- Embedding of `setOverlayVisible` (src/main.ts:244-247). -/
def setOverlayVisible (v : Bool) (s : PluginState) : PluginState :=
  if !s.overlayEl then s else { s with overlayVisible := v }

/-- A sequence of `setOverlayProgress` calls (one idle streak of evaluator
ticks), counting how many emissions reach the visual layer. -/
def runStreak (ps : List ℚ) (s : PluginState) : PluginState × ℕ :=
  match ps with
  | [] => (s, 0)
  | p :: rest =>
    let r := setOverlayProgress p s
    let r2 := runStreak rest r.1
    (r2.1, (if r.2 then 1 else 0) + r2.2)

/-- The `EditorView.updateListener` callback (src/main.ts:22-40).
`activeViewPath` models `getActiveViewOfType(MarkdownView)?.file?.path`;
`insertedLens` the lengths of the inserted fragments reported by
`iterChanges`. -/
def cmUpdateListener (now : ℤ) (activeViewPath : Option String)
    (docChanged : Bool) (insertedLens : List ℕ) (s : PluginState) : PluginState :=
  if !s.active then s
  else
    match s.session with
    | none => s
    | some sess =>
      if activeViewPath ≠ some sess.targetPath then s
      else if !docChanged then s
      else
        let inserted := insertedLens.sum
        if inserted > 0 then { s with lastInsertAt := now, idleWarnFired := false }
        else s

/-- A CodeMirror update event as delivered to the listener: `eventDocPath`
is the path of the document the update belongs to (the editor that fired
it), `activeViewPath` the path of the currently active view when it fires.
The source callback (src/main.ts:22-40) consults only the active view's
path and never the event's own document, so `eventDocPath` is ignored. -/
def cmUpdateEvent (now : ℤ) (eventDocPath activeViewPath : Option String)
    (docChanged : Bool) (insertedLens : List ℕ) (s : PluginState) : PluginState :=
  cmUpdateListener now activeViewPath docChanged insertedLens s

/-- The `editor-change` fallback handler (src/main.ts:52-65).
`viewFilePath` models `view?.file?.path`; `newLen` the current
`editor.getValue().length`. -/
def editorChangeHandler (now : ℤ) (viewFilePath : Option String)
    (newLen : ℕ) (s : PluginState) : PluginState :=
  if !s.active then s
  else
    match s.session with
    | none => s
    | some sess =>
      if viewFilePath ≠ some sess.targetPath then s
      else
        let prevLen := sess.docLength
        let s1 :=
          if newLen > prevLen then { s with lastInsertAt := now, idleWarnFired := false }
          else s
        { s1 with session := some { sess with docLength := newLen } }

/-- Observable outcome of one evaluator tick: whether `handleIdleTimeout`
was invoked and whether the session-complete notice was shown. -/
structure TickResult where
  invokedIdleTimeout : Bool := false
  sessionCompleteNotice : Bool := false
deriving Repr, DecidableEq

/-- The `update` closure of `startIdleTicker` (src/main.ts:135-170): end-of
duration check first, then overlay update from `idleMs`, then the status
countdown, invoking `handleIdleTimeout` when no idle budget remains. -/
def tick (now : ℤ) (s : PluginState) : PluginState × TickResult :=
  if !s.active then (s, {})
  else
    match s.session with
    | none => (s, {})
    | some sess =>
      if now ≥ sess.endsAt then
        (endSession s, { sessionCompleteNotice := true })
      else
        let idleMs := now - s.lastInsertAt
        let remaining := sess.idleCutoffMs - idleMs
        let overlayDelay := min 2000 sess.idleCutoffMs
        let s1 :=
          if idleMs ≥ overlayDelay then
            let denom := max 1 (sess.idleCutoffMs - overlayDelay)
            let p := clamp (((idleMs - overlayDelay : ℤ) : ℚ) / ((denom : ℤ) : ℚ)) 0 1
            (setOverlayProgress p (setOverlayVisible true s)).1
          else
            (setOverlayProgress 0 (setOverlayVisible false s)).1
        if !s1.statusEl then (s1, {})
        else if remaining > 0 then (s1, {})
        else (s1, { invokedIdleTimeout := true })

/-- Fault model for the two I/O suspension points of `wipeTargetNote`:
the `vault.read` or the `vault.modify` may throw. -/
inductive WipeIO
  | ok
  | readFails
  | writeFails
deriving Repr, DecidableEq

/-- Outcome of `wipeTargetNote`: the target file's content after the call
(`none` when the file is missing), how many reads/writes were performed,
and whether the call threw. -/
structure WipeOutcome where
  vault : Option String
  reads : ℕ
  writes : ℕ
  threw : Bool
deriving Repr, DecidableEq

/-- Embedding of `wipeTargetNote` (src/main.ts:193-223).  `vault` is the content of the
file resolved by `getAbstractFileByPath(targetPath)` (`none` when missing or
not a `TFile`).  The best-effort view refresh of src/main.ts:206-221 touches
only open views and is not observable here. -/
def wipeTargetNote (io : WipeIO) (s : PluginState) (vault : Option String) :
    WipeOutcome :=
  match s.session with
  | none => ⟨vault, 0, 0, false⟩
  | some _ =>
    match vault with
    | none => ⟨vault, 0, 0, false⟩
    | some raw =>
      match io with
      | .readFails => ⟨vault, 0, 0, true⟩
      | .writeFails => ⟨vault, 1, 0, true⟩
      | .ok =>
        let preserved := (extractFrontmatterBlock raw).getD ""
        ⟨some preserved, 1, 1, false⟩

/-- Observable outcome of `handleIdleTimeout`: resulting plugin state,
resulting target-file content, I/O performed, and which notice was shown. -/
structure TimeoutOutcome where
  state : PluginState
  vault : Option String
  reads : ℕ
  writes : ℕ
  wipedNotice : Bool
  failNotice : Bool
deriving Repr, DecidableEq

/-- Embedding of `handleIdleTimeout` (src/main.ts:178-191): a no-op unless active and not
already wiping; otherwise set the wipe flag, attempt the wipe (the success
notice on return, the failure notice on a throw), and in the `finally`
block end the session and clear the wipe flag. -/
def handleIdleTimeout (io : WipeIO) (s : PluginState) (vault : Option String) :
    TimeoutOutcome :=
  if !s.active || s.wiping then ⟨s, vault, 0, 0, false, false⟩
  else
    let s1 := { s with wiping := true }
    let w := wipeTargetNote io s1 vault
    let s2 := endSession s1
    let s3 := { s2 with wiping := false }
    ⟨s3, w.vault, w.reads, w.writes, !w.threw, w.threw⟩

/-! ### Lemmas about the frontmatter scan -/

theorem takeUntilClose_eq_firstCloseIdx (ls : List (List Char)) :
    takeUntilClose ls = (firstCloseIdx ls).map (fun k => ls.take (k + 1)) := by
  induction ls with
  | nil => rfl
  | cons l ls ih =>
    by_cases h : trimChars l = dashes
    · simp [takeUntilClose, firstCloseIdx, h]
    · simp only [takeUntilClose, firstCloseIdx, if_neg h, ih]
      cases hfc : firstCloseIdx ls with
      | none => simp
      | some k => simp [List.take_succ_cons]

theorem nl_not_mem_consHead (c : Char) (lls : List (List Char))
    (hc : c ≠ '\n') (h : ∀ l ∈ lls, '\n' ∉ l) :
    ∀ l ∈ consHead c lls, '\n' ∉ l := by
  cases lls with
  | nil =>
    intro l hl
    simp only [consHead, List.mem_singleton] at hl
    subst hl
    simp [List.mem_singleton]
    exact fun he => hc he.symm
  | cons l0 ls0 =>
    intro l hl
    simp only [consHead, List.mem_cons] at hl
    rcases hl with rfl | hl
    · intro hmem
      rcases List.mem_cons.mp hmem with he | hmem0
      · exact hc he.symm
      · exact h l0 (List.mem_cons_self l0 ls0) hmem0
    · exact h l (List.mem_cons_of_mem l0 hl)

theorem nl_not_mem_splitLinesRN (cs : List Char) :
    ∀ l ∈ splitLinesRN cs, '\n' ∉ l := by
  induction cs using splitLinesRN.induct with
  | case1 =>
    intro l hl
    simp only [splitLinesRN, List.mem_singleton] at hl
    subst hl; simp
  | case2 rest ih =>
    intro l hl
    simp only [splitLinesRN, List.mem_cons] at hl
    rcases hl with rfl | hl
    · simp
    · exact ih l hl
  | case3 rest ih =>
    intro l hl
    simp only [splitLinesRN, List.mem_cons] at hl
    rcases hl with rfl | hl
    · simp
    · exact ih l hl
  | case4 rest h1 ih =>
    intro l hl
    simp only [splitLinesRN] at hl
    exact nl_not_mem_consHead '\x0d' (splitLinesRN rest) (by decide) ih l hl
  | case5 c rest h1 h2 h3 ih =>
    intro l hl
    simp only [splitLinesRN] at hl
    exact nl_not_mem_consHead c (splitLinesRN rest) h1 ih l hl

theorem takeUntilClose_getLast (ls t : List (List Char))
    (h : takeUntilClose ls = some t) :
    ∃ z, t.getLast? = some z ∧ trimChars z = dashes ∧ z ∈ ls := by
  induction ls generalizing t with
  | nil => simp [takeUntilClose] at h
  | cons l ls ih =>
    by_cases hd : trimChars l = dashes
    · simp only [takeUntilClose, if_pos hd, Option.some.injEq] at h
      subst h
      exact ⟨l, rfl, hd, List.mem_cons_self l ls⟩
    · simp only [takeUntilClose, if_neg hd] at h
      cases htc : takeUntilClose ls with
      | none => rw [htc] at h; exact absurd h (by simp)
      | some t' =>
        rw [htc] at h
        simp only [Option.some.injEq] at h
        subst h
        obtain ⟨z, hz1, hz2, hz3⟩ := ih t' htc
        refine ⟨z, ?_, hz2, List.mem_cons_of_mem l hz3⟩
        cases t' with
        | nil => simp at hz1
        | cons a b => rw [List.getLast?_cons_cons]; exact hz1

theorem trimChars_dashes_ne_nil (l : List Char) (h : trimChars l = dashes) :
    l ≠ [] := by
  intro he
  subst he
  simp [trimChars, dashes] at h

theorem joinNL_getLast (ts : List (List Char)) (z : List Char)
    (h : ts.getLast? = some z) (hz : z ≠ []) :
    (joinNL ts).getLast? = z.getLast? := by
  induction ts with
  | nil => simp at h
  | cons l ls ih =>
    cases ls with
    | nil =>
      simp only [List.getLast?_singleton, Option.some.injEq] at h
      subst h
      rfl
    | cons l2 ls2 =>
      rw [List.getLast?_cons_cons] at h
      have hrec := ih h
      have hne : joinNL (l2 :: ls2) ≠ [] := by
        intro hnil
        rw [hnil] at hrec
        simp only [List.getLast?_nil] at hrec
        cases hz' : z.getLast? with
        | none => exact hz (List.getLast?_eq_none_iff.mp hz')
        | some a => rw [hz'] at hrec; exact absurd hrec (by simp)
      show (l ++ '\n' :: joinNL (l2 :: ls2)).getLast? = z.getLast?
      rw [List.getLast?_append_of_ne_nil l (by simp)]
      cases hJ : joinNL (l2 :: ls2) with
      | nil => exact absurd hJ hne
      | cons j js =>
        rw [List.getLast?_cons_cons]
        rw [hJ] at hrec
        exact hrec

/-- Claim C1: for every input document content, the wipe's preserved output
is: if the very first line (splitting on `\r?\n`) trims to exactly `"---"`
and some later line also trims to `"---"`, the output is the lines from the
first through that first closing delimiter joined with `"\n"` plus exactly
one trailing `"\n"`; otherwise the output is the empty string.
`wipePreservedOutput` is the code's behaviour (src/main.ts:193-203 and
401-416), `specPreservedOutput` the claim's wording; wiping
`"---\nkey: v\n---\nbody text"` yields exactly `"---\nkey: v\n---\n"`, and a
first line that is not the delimiter yields `""`. -/
theorem wipe_preserved_output_correct :
    (∀ raw : String, wipePreservedOutput raw = specPreservedOutput raw)
    ∧ wipePreservedOutput "---\nkey: v\n---\nbody text" = "---\nkey: v\n---\n"
    ∧ (∀ raw : String,
        trimChars ((splitLinesRN raw.data).headI) ≠ dashes →
          wipePreservedOutput raw = "") := by
  refine ⟨?_, by decide, ?_⟩
  · intro raw
    unfold wipePreservedOutput extractFrontmatterBlock specPreservedOutput
    cases hsp : splitLinesRN raw.data with
    | nil => rfl
    | cons l0 rest =>
      by_cases hd : trimChars l0 = dashes
      · simp only [if_pos hd]
        cases hfc : firstCloseIdx rest with
        | none =>
          have htc : takeUntilClose rest = none := by
            rw [takeUntilClose_eq_firstCloseIdx, hfc]; rfl
          simp [htc]
        | some k =>
          have htc : takeUntilClose rest = some (rest.take (k + 1)) := by
            rw [takeUntilClose_eq_firstCloseIdx, hfc]; rfl
          obtain ⟨z, hz1, hz2, hz3⟩ := takeUntilClose_getLast rest _ htc
          have hzmem : z ∈ splitLinesRN raw.data := by
            rw [hsp]; exact List.mem_cons_of_mem l0 hz3
          have hznl : '\n' ∉ z := nl_not_mem_splitLinesRN raw.data z hzmem
          have hzne : z ≠ [] := trimChars_dashes_ne_nil z hz2
          have hlast : (joinNL (l0 :: rest.take (k + 1))).getLast? = z.getLast? := by
            apply joinNL_getLast
            · cases ht : rest.take (k + 1) with
              | nil => rw [ht] at hz1; simp at hz1
              | cons a b =>
                rw [ht] at hz1
                rw [List.getLast?_cons_cons]
                exact hz1
            · exact hzne
          have hnoNL : endsWithNL (joinNL (l0 :: rest.take (k + 1))) = false := by
            simp only [endsWithNL, hlast, decide_eq_false_iff_not]
            intro hcon
            exact hznl (List.mem_of_getLast?_eq_some hcon)
          simp [htc, hnoNL, List.take_succ_cons]
      · simp only [if_neg hd]
        rfl
  · intro raw h
    unfold wipePreservedOutput extractFrontmatterBlock
    cases hsp : splitLinesRN raw.data with
    | nil => rfl
    | cons l0 rest =>
      rw [hsp] at h
      simp only [List.headI] at h
      simp only [if_neg h]
      rfl

/-- Witness for C1 at concrete inputs. -/
theorem wipe_preserved_output_correct_witness :
    wipePreservedOutput "x" = specPreservedOutput "x"
    ∧ wipePreservedOutput "body text" = "" :=
  ⟨wipe_preserved_output_correct.1 "x",
   wipe_preserved_output_correct.2.2 "body text" (by decide)⟩

/-! ### Concrete armed-session states used by the witnesses -/

/-- A session armed for one minute with the default 5000 ms idle cutoff. -/
def sampleSession : SessionState :=
  ⟨"note.md", 0, 60000, 5000, 60000, 10⟩

/-- The plugin state right after `startSessionFlow` armed `sampleSession`. -/
def sampleArmed : PluginState :=
  { active := true
    targetFile := some "note.md"
    session := some sampleSession
    lastInsertAt := 0
    idleTicker := some 1
    statusEl := true
    overlayEl := true
    bodyNoSelect := true }

/-- Claim C3: on every evaluator tick where `now ≥ endsAt`, the session ends
with a success notification and no wipe is invoked, even if
`idleMs ≥ idleCutoffMs` is simultaneously true on that tick: the
end-of-duration check runs strictly before the idle-cutoff check. -/
theorem tick_duration_priority (s : PluginState) (sess : SessionState) (now : ℤ)
    (hact : s.active = true) (hsess : s.session = some sess)
    (hend : now ≥ sess.endsAt) :
    tick now s =
      (endSession s, { invokedIdleTimeout := false, sessionCompleteNotice := true }) := by
  simp [tick, hact, hsess, hend]

/-- Witness for C3: at `now = 60000` the duration is up and the idle gap
(60000 ms) also exceeds the 5000 ms cutoff, yet the tick only ends the
session. -/
theorem tick_duration_priority_witness :
    tick 60000 sampleArmed =
      (endSession sampleArmed,
        { invokedIdleTimeout := false, sessionCompleteNotice := true }) :=
  tick_duration_priority sampleArmed sampleSession 60000 rfl rfl (by decide)

/-- Claim C2: `handleIdleTimeout` is single-flight.  A trigger arriving while
a wipe is in flight (`wiping = true`), or when no session is active, performs
no read, no write, no notice and no state change; a trigger on an armed,
non-wiping state performs exactly one content replacement, and the mid-flight
state it creates (`wiping := true`, set before the read) turns any duplicate
trigger into a no-op, the flag being cleared only after the session ends. -/
theorem handleIdleTimeout_single_flight (s : PluginState) (vault : Option String)
    (io : WipeIO) :
    (s.wiping = true →
      handleIdleTimeout io s vault = ⟨s, vault, 0, 0, false, false⟩)
    ∧ (s.active = false →
      handleIdleTimeout io s vault = ⟨s, vault, 0, 0, false, false⟩)
    ∧ (∀ sess raw, s.active = true → s.wiping = false → s.session = some sess →
        vault = some raw →
          (handleIdleTimeout .ok s vault).writes = 1
          ∧ (handleIdleTimeout .ok s vault).reads = 1
          ∧ (handleIdleTimeout .ok s vault).state.active = false
          ∧ (handleIdleTimeout .ok s vault).state.wiping = false
          ∧ handleIdleTimeout io { s with wiping := true } vault =
              ⟨{ s with wiping := true }, vault, 0, 0, false, false⟩) := by
  refine ⟨?_, ?_, ?_⟩
  · intro h
    simp [handleIdleTimeout, h]
  · intro h
    simp [handleIdleTimeout, h]
  · intro sess raw hact hw hsess hv
    subst hv
    simp [handleIdleTimeout, wipeTargetNote, endSession, hact, hw, hsess]

/-- Witness for C2: a duplicate trigger on the mid-flight state is a no-op,
and the armed trigger writes exactly once. -/
theorem handleIdleTimeout_single_flight_witness :
    handleIdleTimeout .ok { sampleArmed with wiping := true } (some "body") =
      ⟨{ sampleArmed with wiping := true }, some "body", 0, 0, false, false⟩
    ∧ (handleIdleTimeout .ok sampleArmed (some "body")).writes = 1 :=
  ⟨(handleIdleTimeout_single_flight { sampleArmed with wiping := true }
      (some "body") .ok).1 rfl,
   ((handleIdleTimeout_single_flight sampleArmed (some "body") .ok).2.2
      sampleSession "body" rfl rfl rfl rfl).1⟩

/-- Claim C4: while the session is armed, a tick whose idle gap is below the
cutoff never invokes the wipe, and a qualifying insertion on either channel
(positive inserted-text sum on the primary channel, or net length growth on
the fallback channel) advances `lastInsertAt` to the insertion time,
restarting the idle countdown from that moment. -/
theorem idle_reset_no_wipe (s : PluginState) (sess : SessionState) (now : ℤ)
    (hact : s.active = true) (hsess : s.session = some sess) :
    (now - s.lastInsertAt < sess.idleCutoffMs →
      (tick now s).2.invokedIdleTimeout = false)
    ∧ (∀ lens : List ℕ, 0 < lens.sum →
        (cmUpdateListener now (some sess.targetPath) true lens s).lastInsertAt = now)
    ∧ (∀ newLen : ℕ, sess.docLength < newLen →
        (editorChangeHandler now (some sess.targetPath) newLen s).lastInsertAt = now) := by
  refine ⟨?_, ?_, ?_⟩
  · intro hidle
    by_cases hend : now ≥ sess.endsAt
    · simp [tick, hact, hsess, hend]
    · have hrem : sess.idleCutoffMs - (now - s.lastInsertAt) > 0 := by omega
      simp only [tick, hact, hsess]
      split_ifs <;> simp_all
  · intro lens hsum
    simp [cmUpdateListener, hact, hsess, hsum]
  · intro newLen hgrow
    simp [editorChangeHandler, hact, hsess, hgrow]

/-- Witness for C4 at a 3000 ms idle gap followed by both insertion kinds. -/
theorem idle_reset_no_wipe_witness :
    (tick 3000 sampleArmed).2.invokedIdleTimeout = false
    ∧ (cmUpdateListener 3000 (some "note.md") true [1] sampleArmed).lastInsertAt = 3000
    ∧ (editorChangeHandler 3000 (some "note.md") 11 sampleArmed).lastInsertAt = 3000 :=
  ⟨(idle_reset_no_wipe sampleArmed sampleSession 3000 rfl rfl).1 (by decide),
   (idle_reset_no_wipe sampleArmed sampleSession 3000 rfl rfl).2.1 [1] (by decide),
   (idle_reset_no_wipe sampleArmed sampleSession 3000 rfl rfl).2.2 11 (by decide)⟩

/-- Claim C5: if the wipe's read or write throws, `handleIdleTimeout` reports
the generic failure notice (and not the success notice) and still ends the
session exactly as on a successful wipe: the resulting plugin state equals
the success path's state, with the active flag cleared, the session object
released, the ticker stopped, the status and overlay UI removed and the
wipe flag cleared — never leaving a session armed after a failed wipe. -/
theorem wipe_failure_forces_session_end (s : PluginState) (vault : Option String)
    (io : WipeIO) (sess : SessionState) (raw : String)
    (hact : s.active = true) (hw : s.wiping = false) (hsess : s.session = some sess)
    (hv : vault = some raw) (hio : io ≠ WipeIO.ok) :
    (handleIdleTimeout io s vault).failNotice = true
    ∧ (handleIdleTimeout io s vault).wipedNotice = false
    ∧ (handleIdleTimeout io s vault).state = (handleIdleTimeout .ok s vault).state
    ∧ (handleIdleTimeout io s vault).state.active = false
    ∧ (handleIdleTimeout io s vault).state.session = none
    ∧ (handleIdleTimeout io s vault).state.idleTicker = none
    ∧ (handleIdleTimeout io s vault).state.statusEl = false
    ∧ (handleIdleTimeout io s vault).state.overlayEl = false
    ∧ (handleIdleTimeout io s vault).state.wiping = false := by
  subst hv
  cases io with
  | ok => exact absurd rfl hio
  | readFails =>
    simp [handleIdleTimeout, wipeTargetNote, endSession, hact, hw, hsess]
  | writeFails =>
    simp [handleIdleTimeout, wipeTargetNote, endSession, hact, hw, hsess]

/-- Witness for C5: a throwing read on the armed sample state. -/
theorem wipe_failure_forces_session_end_witness :
    (handleIdleTimeout .readFails sampleArmed (some "body")).failNotice = true
    ∧ (handleIdleTimeout .readFails sampleArmed (some "body")).wipedNotice = false
    ∧ (handleIdleTimeout .readFails sampleArmed (some "body")).state =
        (handleIdleTimeout .ok sampleArmed (some "body")).state
    ∧ (handleIdleTimeout .readFails sampleArmed (some "body")).state.active = false
    ∧ (handleIdleTimeout .readFails sampleArmed (some "body")).state.session = none
    ∧ (handleIdleTimeout .readFails sampleArmed (some "body")).state.idleTicker = none
    ∧ (handleIdleTimeout .readFails sampleArmed (some "body")).state.statusEl = false
    ∧ (handleIdleTimeout .readFails sampleArmed (some "body")).state.overlayEl = false
    ∧ (handleIdleTimeout .readFails sampleArmed (some "body")).state.wiping = false :=
  wipe_failure_forces_session_end sampleArmed (some "body") .readFails
    sampleSession "body" rfl rfl rfl rfl (by decide)

/-- Claim C7: the fallback channel advances `lastInsertAt` to the current
time exactly when the session is active, the event's document path equals
the session's `targetPath`, and the new length strictly exceeds the recorded
`docLength`; deletions and length-preserving changes never advance it. -/
theorem editor_change_growth_only (s : PluginState) (sess : SessionState)
    (now : ℤ) (path : Option String) (newLen : ℕ)
    (hsess : s.session = some sess) :
    (editorChangeHandler now path newLen s).lastInsertAt =
      if s.active = true ∧ path = some sess.targetPath ∧ sess.docLength < newLen
      then now else s.lastInsertAt := by
  by_cases hact : s.active = true
  · by_cases hpath : path = some sess.targetPath
    · by_cases hlen : sess.docLength < newLen
      · simp [editorChangeHandler, hact, hsess, hpath, hlen]
      · simp [editorChangeHandler, hact, hsess, hpath, hlen]
    · simp [editorChangeHandler, hact, hsess, hpath]
  · simp [editorChangeHandler, hact]

/-- Witness for C7: a growth event on the armed sample state. -/
theorem editor_change_growth_only_witness :
    (editorChangeHandler 42 (some "note.md") 11 sampleArmed).lastInsertAt =
      if sampleArmed.active = true ∧ some "note.md" = some sampleSession.targetPath
          ∧ sampleSession.docLength < 11
      then 42 else sampleArmed.lastInsertAt :=
  editor_change_growth_only sampleArmed sampleSession 42 (some "note.md") 11 rfl

/-- Counterexample to C8 as stated: a CodeMirror update belonging to a
foreign document (`"other.md"`, differing from the session's target
`"note.md"`) that is delivered while the target view is the active one is
counted as a qualifying insertion — src/main.ts:26-27 gates on the active
view's path and never consults the event's own document, so `lastInsertAt`
changes. -/
theorem events_ignore_foreign_or_inactive_counterexample :
    some "other.md" ≠ some sampleSession.targetPath
    ∧ sampleArmed.session = some sampleSession
    ∧ sampleArmed.active = true
    ∧ (cmUpdateEvent 7 (some "other.md") (some "note.md") true [1]
        sampleArmed).lastInsertAt ≠ sampleArmed.lastInsertAt :=
  ⟨by decide, rfl, rfl, by decide⟩

/-- Claim C8 (amended): an event on either channel arriving when no session
is active leaves the entire plugin state unchanged, as does a fallback
editor-change event whose document path differs from the session's
`targetPath`; on the primary CodeMirror channel the gate is the currently
active view's path, not the event's own document — for every
event-document path, the update is ignored exactly when the active view's
path differs from `targetPath`. -/
theorem events_gate_by_channel (s : PluginState) (now : ℤ)
    (eventDoc viewPath : Option String) (docCh : Bool) (lens : List ℕ)
    (newLen : ℕ) :
    (s.active = false →
      cmUpdateEvent now eventDoc viewPath docCh lens s = s
      ∧ editorChangeHandler now viewPath newLen s = s)
    ∧ (∀ sess, s.session = some sess → viewPath ≠ some sess.targetPath →
      cmUpdateEvent now eventDoc viewPath docCh lens s = s
      ∧ editorChangeHandler now viewPath newLen s = s) := by
  constructor
  · intro h
    constructor <;>
      simp [cmUpdateEvent, cmUpdateListener, editorChangeHandler, h]
  · intro sess hsess hpath
    by_cases hact : s.active = true
    · constructor <;>
        simp [cmUpdateEvent, cmUpdateListener, editorChangeHandler, hact,
          hsess, hpath]
    · constructor <;>
        simp [cmUpdateEvent, cmUpdateListener, editorChangeHandler, hact]

/-- Witness for the amended C8: a target-document update arriving while a
foreign view is active is ignored, and target-path events on an inactive
state are ignored on both channels. -/
theorem events_gate_by_channel_witness :
    (cmUpdateEvent 5 (some "note.md") (some "other.md") true [1] sampleArmed
        = sampleArmed
      ∧ editorChangeHandler 5 (some "other.md") 99 sampleArmed = sampleArmed)
    ∧ (cmUpdateEvent 5 (some "note.md") (some "note.md") true [1]
          { sampleArmed with active := false }
        = { sampleArmed with active := false }
      ∧ editorChangeHandler 5 (some "note.md") 99
          { sampleArmed with active := false }
        = { sampleArmed with active := false }) :=
  ⟨(events_gate_by_channel sampleArmed 5 (some "note.md") (some "other.md")
      true [1] 99).2 sampleSession rfl (by decide),
   (events_gate_by_channel { sampleArmed with active := false } 5
      (some "note.md") (some "note.md") true [1] 99).1 rfl⟩

/-- Claim C10: the fallback handler records `docLength = newLength` on every
target-document event, including pure deletions, so after a deletion the
comparison baseline is the lowered length and a subsequent insertion
qualifies as soon as the document grows past it — even while still shorter
than at session start (the witness uses `4 → 6` against a start length of
10). -/
theorem fallback_baseline_tracks_deletions (s : PluginState) (sess : SessionState)
    (now1 now2 : ℤ) (len1 len2 : ℕ)
    (hact : s.active = true) (hsess : s.session = some sess)
    (hdel : len1 ≤ sess.docLength) (hgrow : len1 < len2) :
    (editorChangeHandler now1 (some sess.targetPath) len1 s).session
        = some { sess with docLength := len1 }
    ∧ (editorChangeHandler now1 (some sess.targetPath) len1 s).lastInsertAt
        = s.lastInsertAt
    ∧ (editorChangeHandler now2 (some sess.targetPath) len2
        (editorChangeHandler now1 (some sess.targetPath) len1 s)).lastInsertAt
        = now2 := by
  have hnogrow : ¬ (len1 > sess.docLength) := by omega
  have h1 : editorChangeHandler now1 (some sess.targetPath) len1 s =
      { s with session := some { sess with docLength := len1 } } := by
    simp [editorChangeHandler, hact, hsess, hnogrow]
  refine ⟨by rw [h1], by rw [h1], ?_⟩
  rw [h1]
  simp [editorChangeHandler, hact, hgrow]

/-- Witness for C10: delete from 10 to 4 characters, then grow to 6. -/
theorem fallback_baseline_tracks_deletions_witness :
    (editorChangeHandler 100 (some "note.md") 4 sampleArmed).session
        = some { sampleSession with docLength := 4 }
    ∧ (editorChangeHandler 100 (some "note.md") 4 sampleArmed).lastInsertAt
        = sampleArmed.lastInsertAt
    ∧ (editorChangeHandler 200 (some "note.md") 6
        (editorChangeHandler 100 (some "note.md") 4 sampleArmed)).lastInsertAt
        = 200 :=
  fallback_baseline_tracks_deletions sampleArmed sampleSession 100 200 4 6
    rfl rfl (by decide) (by decide)

/-! ### Overlay quantization lemmas -/

theorem quantize_nonneg (p : ℚ) : 0 ≤ quantize p :=
  le_max_left _ _

theorem quantize_le_ten (p : ℚ) : quantize p ≤ 10 := by
  unfold quantize clampZ
  omega

theorem runStreak_bound (ps : List ℚ) (s : PluginState)
    (hsort : List.Sorted (· ≤ ·) (ps.map quantize))
    (hlb : ∀ p ∈ ps, s.overlayLevel ≤ quantize p) :
    (runStreak ps s).2 ≤ (10 - s.overlayLevel).toNat := by
  induction ps generalizing s with
  | nil => simp [runStreak]
  | cons p rest ih =>
    rw [List.map_cons] at hsort
    have hs := List.sorted_cons.mp hsort
    have hlbp : s.overlayLevel ≤ quantize p := hlb p (List.mem_cons_self p rest)
    have hlbrest : ∀ q ∈ rest, quantize p ≤ quantize q := by
      intro q hq
      exact hs.1 (quantize q) (List.mem_map_of_mem quantize hq)
    cases hov : s.overlayEl with
    | false =>
      have hstep : setOverlayProgress p s = (s, false) := by
        simp [setOverlayProgress, hov]
      simp only [runStreak, hstep, Bool.false_eq_true, if_false, Nat.zero_add]
      exact ih s hs.2 fun q hq => hlb q (List.mem_cons_of_mem p hq)
    | true =>
      by_cases heq : quantize p = s.overlayLevel
      · have hstep : setOverlayProgress p s = (s, false) := by
          simp [setOverlayProgress, hov, heq]
        simp only [runStreak, hstep, Bool.false_eq_true, if_false, Nat.zero_add]
        exact ih s hs.2 fun q hq => hlb q (List.mem_cons_of_mem p hq)
      · have hstep : setOverlayProgress p s =
            ({ s with overlayLevel := quantize p }, true) := by
          simp [setOverlayProgress, hov, heq]
        simp only [runStreak, hstep, if_true, Nat.add_comm 1]
        have hrec := ih { s with overlayLevel := quantize p } hs.2 hlbrest
        have hle10 := quantize_le_ten p
        have hlt : s.overlayLevel < quantize p := lt_of_le_of_ne hlbp (Ne.symm heq)
        simp only at hrec
        omega

/-- Claim C9: `setOverlayProgress` re-emits to the visual layer only when the
quantized level changes — a call whose ratio quantizes to the stored level
performs no update — so an uninterrupted idle streak (non-decreasing
quantized levels, starting from level 0) produces at most 10 discrete
intensity emissions. -/
theorem overlay_emits_only_on_level_change :
    (∀ (p : ℚ) (s : PluginState), quantize p = s.overlayLevel →
      setOverlayProgress p s = (s, false))
    ∧ (∀ (ps : List ℚ) (s : PluginState), s.overlayLevel = 0 →
      List.Sorted (· ≤ ·) (ps.map quantize) → (runStreak ps s).2 ≤ 10) := by
  constructor
  · intro p s h
    cases hov : s.overlayEl <;> simp [setOverlayProgress, hov, h]
  · intro ps s h0 hsort
    have hb := runStreak_bound ps s hsort (by
      intro p hp
      rw [h0]
      exact quantize_nonneg p)
    rw [h0] at hb
    simpa using hb

/-- Witness for C9: a redundant level-0 call is a no-op on the armed state,
and a monotone two-tick streak emits at most 10 times. -/
theorem overlay_emits_only_on_level_change_witness :
    setOverlayProgress 0 sampleArmed = (sampleArmed, false)
    ∧ (runStreak [0, 1] sampleArmed).2 ≤ 10 :=
  ⟨overlay_emits_only_on_level_change.1 0 sampleArmed
      (by simp [quantize, clampZ, sampleArmed]),
   overlay_emits_only_on_level_change.2 [0, 1] sampleArmed rfl
      (by norm_num [List.sorted_cons, quantize, clampZ])⟩

/-! ### Overlay intensity model -/

/-- The claim's overlay intensity formula:
`clamp(round(clamp((idleMs - overlayDelay) / max(1, idleCutoffMs - overlayDelay), 0, 1) * 10), 0, 10)`. -/
def overlayLevelFormula (idleMs overlayDelay cutoffMs : ℤ) : ℤ :=
  quantize (clamp (((idleMs - overlayDelay : ℤ) : ℚ) /
    ((max 1 (cutoffMs - overlayDelay) : ℤ) : ℚ)) 0 1)

theorem overlayLevelFormula_mono (d c : ℤ) {i j : ℤ} (hij : i ≤ j) :
    overlayLevelFormula i d c ≤ overlayLevelFormula j d c := by
  unfold overlayLevelFormula quantize clampZ clamp
  have hden : (0 : ℚ) < ((max 1 (c - d) : ℤ) : ℚ) := by
    have h1 : (0 : ℤ) < max 1 (c - d) := by
      have := le_max_left 1 (c - d)
      omega
    exact_mod_cast h1
  have hsub : ((i - d : ℤ) : ℚ) ≤ ((j - d : ℤ) : ℚ) := by
    exact_mod_cast sub_le_sub_right hij d
  have hdiv : ((i - d : ℤ) : ℚ) / ((max 1 (c - d) : ℤ) : ℚ) ≤
      ((j - d : ℤ) : ℚ) / ((max 1 (c - d) : ℤ) : ℚ) :=
    (div_le_div_iff_of_pos_right hden).mpr hsub
  have hclamp :
      max 0 (min 1 (((i - d : ℤ) : ℚ) / ((max 1 (c - d) : ℤ) : ℚ))) ≤
      max 0 (min 1 (((j - d : ℤ) : ℚ) / ((max 1 (c - d) : ℤ) : ℚ))) :=
    max_le_max le_rfl (min_le_min le_rfl hdiv)
  have hmul :
      max 0 (min 1 (((i - d : ℤ) : ℚ) / ((max 1 (c - d) : ℤ) : ℚ))) * 10 ≤
      max 0 (min 1 (((j - d : ℤ) : ℚ) / ((max 1 (c - d) : ℤ) : ℚ))) * 10 :=
    mul_le_mul_of_nonneg_right hclamp (by norm_num)
  have hround := Int.floor_le_floor
    (add_le_add_right hmul ((1 : ℚ) / 2))
  rw [round_eq, round_eq]
  exact max_le_max le_rfl (min_le_min le_rfl hround)

theorem setOverlayVisible_eq (v : Bool) (s : PluginState)
    (hov : s.overlayEl = true) :
    setOverlayVisible v s = { s with overlayVisible := v } := by
  simp [setOverlayVisible, hov]

theorem setOverlayProgress_fst_level (p : ℚ) (s : PluginState)
    (hov : s.overlayEl = true) :
    (setOverlayProgress p s).1.overlayLevel = quantize p := by
  by_cases heq : quantize p = s.overlayLevel
  · simp [setOverlayProgress, hov, heq]
  · simp [setOverlayProgress, hov, heq]

theorem setOverlayProgress_fst_visible (p : ℚ) (s : PluginState) :
    (setOverlayProgress p s).1.overlayVisible = s.overlayVisible := by
  cases hov : s.overlayEl
  · simp [setOverlayProgress, hov]
  · by_cases heq : quantize p = s.overlayLevel <;>
      simp [setOverlayProgress, hov, heq]

theorem tick_armed_fst (s : PluginState) (sess : SessionState) (now : ℤ)
    (hact : s.active = true) (hsess : s.session = some sess)
    (hend : ¬ now ≥ sess.endsAt) :
    (tick now s).1 =
      if now - s.lastInsertAt ≥ min 2000 sess.idleCutoffMs then
        (setOverlayProgress
          (clamp (((now - s.lastInsertAt - min 2000 sess.idleCutoffMs : ℤ) : ℚ) /
            ((max 1 (sess.idleCutoffMs - min 2000 sess.idleCutoffMs) : ℤ) : ℚ)) 0 1)
          (setOverlayVisible true s)).1
      else (setOverlayProgress 0 (setOverlayVisible false s)).1 := by
  simp only [tick, hact, hsess, Bool.not_true, Bool.false_eq_true, if_false,
    if_neg hend]
  split_ifs <;> rfl

/-- Claim C6: on every tick of an armed session with `now < endsAt`, letting
`overlayDelay = min(2000, idleCutoffMs)`: below the delay the overlay is
hidden with intensity 0; at or past it the overlay is visible with intensity
`clamp(round(clamp((idleMs - overlayDelay) / max(1, idleCutoffMs - overlayDelay), 0, 1) * 10), 0, 10)`,
an integer in `[0, 10]` that is non-decreasing in `idleMs`. -/
theorem tick_overlay_model (s : PluginState) (sess : SessionState) (now : ℤ)
    (hact : s.active = true) (hsess : s.session = some sess)
    (hov : s.overlayEl = true) (hend : now < sess.endsAt) :
    (now - s.lastInsertAt < min 2000 sess.idleCutoffMs →
      (tick now s).1.overlayVisible = false ∧ (tick now s).1.overlayLevel = 0)
    ∧ (min 2000 sess.idleCutoffMs ≤ now - s.lastInsertAt →
      (tick now s).1.overlayVisible = true
      ∧ (tick now s).1.overlayLevel =
          overlayLevelFormula (now - s.lastInsertAt)
            (min 2000 sess.idleCutoffMs) sess.idleCutoffMs)
    ∧ (0 ≤ overlayLevelFormula (now - s.lastInsertAt)
          (min 2000 sess.idleCutoffMs) sess.idleCutoffMs
      ∧ overlayLevelFormula (now - s.lastInsertAt)
          (min 2000 sess.idleCutoffMs) sess.idleCutoffMs ≤ 10)
    ∧ (∀ i j : ℤ, i ≤ j →
        overlayLevelFormula i (min 2000 sess.idleCutoffMs) sess.idleCutoffMs ≤
        overlayLevelFormula j (min 2000 sess.idleCutoffMs) sess.idleCutoffMs) := by
  have hend' : ¬ now ≥ sess.endsAt := not_le.mpr hend
  have hfst := tick_armed_fst s sess now hact hsess hend'
  have hovT : (setOverlayVisible true s).overlayEl = true := by
    rw [setOverlayVisible_eq true s hov]; exact hov
  have hovF : (setOverlayVisible false s).overlayEl = true := by
    rw [setOverlayVisible_eq false s hov]; exact hov
  refine ⟨?_, ?_, ⟨quantize_nonneg _, quantize_le_ten _⟩, ?_⟩
  · intro hlt
    rw [hfst, if_neg (not_le.mpr hlt)]
    constructor
    · rw [setOverlayProgress_fst_visible, setOverlayVisible_eq false s hov]
    · rw [setOverlayProgress_fst_level 0 _ hovF]
      simp [quantize, clampZ]
  · intro hge
    rw [hfst, if_pos hge]
    constructor
    · rw [setOverlayProgress_fst_visible, setOverlayVisible_eq true s hov]
    · rw [setOverlayProgress_fst_level _ _ hovT]
      rfl
  · intro i j hij
    exact overlayLevelFormula_mono _ _ hij

/-- Witness for C6: at a 3000 ms idle gap the overlay is visible at the
formula's level; at 1000 ms it is hidden at level 0. -/
theorem tick_overlay_model_witness :
    ((tick 3000 sampleArmed).1.overlayVisible = true
      ∧ (tick 3000 sampleArmed).1.overlayLevel =
          overlayLevelFormula (3000 - sampleArmed.lastInsertAt)
            (min 2000 sampleSession.idleCutoffMs) sampleSession.idleCutoffMs)
    ∧ ((tick 1000 sampleArmed).1.overlayVisible = false
      ∧ (tick 1000 sampleArmed).1.overlayLevel = 0) :=
  ⟨(tick_overlay_model sampleArmed sampleSession 3000 rfl rfl rfl
      (by decide)).2.1 (by decide),
   (tick_overlay_model sampleArmed sampleSession 1000 rfl rfl rfl
      (by decide)).1 (by decide)⟩

end DangerousMode
